import Mathlib

/-
Shallow embedding of the NationStates API client library ("owl" repository):
the request builder hierarchy, the send pipeline, the response decoders and
the client's rate limiter, together with theorems settling the claims about
them.  All definitions are translated from the JavaScript source
(src/nationscripts/requests.js, src/nationscripts/enums.js, and the unnamed
api / exceptions / responses modules); JavaScript-specific semantics
(undefined, NaN, truthiness, loose equality, string coercion) are modelled
explicitly where the source relies on them.
-/

namespace Owl

/- ===== Model of xml2js-parsed values (plain JavaScript data) =====

The xml2js parser (an external library) turns an XML document into a plain
JavaScript object: the root tag becomes the single key of the result object,
every child tag becomes a key holding an array of parsed children, and a
text-only element becomes its text string.  `JVal` models the values such a
parse can produce, plus `undefined` for missing properties. -/

inductive JVal where
  | undefined
  | str (s : String)
  | arr (xs : List JVal)
  | obj (fields : List (String × JVal))

/-- Property access `a?.[k]` (and plain `a[k]` on a defined receiver):
`undefined` propagates, objects look the key up, and a named property of a
string or array is `undefined`. -/
def JVal.getOpt : JVal → String → JVal
  | .obj fields, k =>
      match fields.find? (fun p => p.1 == k) with
      | some p => p.2
      | none => .undefined
  | _, _ => .undefined

/-- Index access `a?.[i]`: arrays yield the element or `undefined`; strings
yield the one-character string at that position (JavaScript string
indexing); everything else yields `undefined`. -/
def JVal.idx : JVal → Nat → JVal
  | .arr xs, i => xs.getD i .undefined
  | .str s, i =>
      match s.data.get? i with
      | some c => .str (String.mk [c])
      | none => .undefined
  | _, _ => .undefined

/-- String conversion of a non-array value, as by JavaScript `String(v)`. -/
def JVal.primStr : JVal → String
  | .undefined => "undefined"
  | .str s => s
  | .obj _ => "[object Object]"
  | .arr _ => ""

/-- JavaScript `toString()`: an array joins its elements with a comma, where
an `undefined` element becomes the empty string.  Nested arrays are not
modelled (no embedded code path produces them). -/
def JVal.toStr : JVal → String
  | .arr xs =>
      String.intercalate "," (xs.map fun x =>
        match x with
        | .undefined => ""
        | v => JVal.primStr v)
  | v => JVal.primStr v

/-- JavaScript truthiness of a `JVal`: `undefined` and the empty string are
falsy, every other modelled value is truthy. -/
def JVal.truthy : JVal → Bool
  | .undefined => false
  | .str s => s != ""
  | .arr _ => true
  | .obj _ => true

/-- JavaScript String.prototype.trim: strip leading and trailing
whitespace (modelled character-wise over the string's data). -/
def jsTrim (s : String) : String :=
  String.mk
    (((s.data.dropWhile Char.isWhitespace).reverse.dropWhile Char.isWhitespace).reverse)

/-- JavaScript String.prototype.split against a single-character separator
(the source splits on the regexes /\+/g, /\:/gm and /\,/gm): the empty
string yields [''], and each separator occurrence starts a new piece. -/
def splitChar (sep : Char) : List Char → List (List Char)
  | [] => [[]]
  | c :: rest =>
      let r := splitChar sep rest
      if c = sep then [] :: r
      else
        match r with
        | [] => [[c]]
        | h :: t => (c :: h) :: t

def jsSplit (s : String) (sep : Char) : List String :=
  (splitChar sep s.data).map String.mk

/- ===== Helper functions of the responses module =====

function txt(element, tag, index = 0) in the responses module:
  return element?.[tag]?.[index]?.toString().trim();
returning `undefined` (modelled as `none`) when the chain hits `undefined`. -/

def txtTag (element : JVal) (tag : String) (index : Nat) : Option String :=
  match (element.getOpt tag).idx index with
  | .undefined => none
  | v => some (jsTrim v.toStr)

/-- Value of a digit list read as a decimal number. -/
def digitsVal (l : List Char) : Nat :=
  l.foldl (fun a c => a * 10 + (c.toNat - 48)) 0

/-- Test for the source regex /^\d+$/. -/
def isAllDigits (s : String) : Bool :=
  s != "" && s.data.all Char.isDigit

/-- Test for the source regex /^\d+\.d+$/ (digits, a dot, then literal 'd'
characters - the backslash is missing in the source, so this is what the
regex matches); parseFloat on such a string stops at the dot and returns the
integer part. -/
def isDotDigits (s : String) : Bool :=
  match jsSplit s '.' with
  | [a, b] => isAllDigits a && b != "" && b.data.all (· == 'd')
  | _ => false

/-- function num(element, tag) of the responses module: take the trimmed
text, and return a number only for a non-empty text matching one of the two
regexes; otherwise `undefined`. -/
def numTag (element : JVal) (tag : String) : Option Int :=
  match txtTag element tag 0 with
  | none => none
  | some ret =>
      if ret = "" then none
      else if isAllDigits ret then some (digitsVal ret.data)
      else if isDotDigits ret then
        some (digitsVal (ret.data.takeWhile Char.isDigit))
      else none

/- ===== JavaScript numbers with NaN, for the rate limiter ===== -/

inductive JNum where
  | nan
  | int (x : Int)
deriving DecidableEq, Repr

def JNum.add : JNum → JNum → JNum
  | .int a, .int b => .int (a + b)
  | _, _ => .nan

def JNum.sub : JNum → JNum → JNum
  | .int a, .int b => .int (a - b)
  | _, _ => .nan

/-- JavaScript `>=`: any comparison involving NaN (in particular a numeric
coercion of `undefined`) is false. -/
def JNum.ge : JNum → JNum → Bool
  | .int a, .int b => a ≥ b
  | _, _ => false

/-- Array indexing `arr[i]` followed by use in arithmetic: an out-of-range
or NaN index yields `undefined`, which numeric use coerces to NaN. -/
def jsArrayGetNum (l : List JNum) (i : JNum) : JNum :=
  match i with
  | .int k => if 0 ≤ k then l.getD k.toNat .nan else .nan
  | .nan => .nan

/- ===== Rate limiter (NSAPI.#complyWithLimit) =====

The client keeps `#requests = []` (an array of expiry timestamps) and
`#ratelimit = { period: 30000, amount: 49 }`.  The admission computation in
the source reads `this.#requests.amount` and `this.#requests.period` -
properties that do not exist on the array (they live on `#ratelimit`) - so
both evaluate to `undefined`, which numeric use coerces to NaN:

    let now = Date.now();
    let diff = this.#requests.length >= this.#requests.amount
            ? this.#requests[this.#requests.length - this.#requests.amount] - now
            : 0;
    let expires = now + diff + this.#requests.period;
    this.#requests.push(expires);
    ...
    if(diff > 0) await new Promise(... diff ...);

The returned pair is the new `#requests` array and the number of
milliseconds the caller is suspended. -/

def complyWithLimit (requests : List JNum) (now : Int) : List JNum × Int :=
  let requestsAmount : JNum := .nan
  let requestsPeriod : JNum := .nan
  let diff : JNum :=
    if JNum.ge (.int requests.length) requestsAmount then
      JNum.sub (jsArrayGetNum requests (JNum.sub (.int requests.length) requestsAmount))
        (.int now)
    else .int 0
  let expires := JNum.add (JNum.add (.int now) diff) requestsPeriod
  let wait : Int :=
    match diff with
    | .int d => if 0 < d then d else 0
    | .nan => 0
  (requests ++ [expires], wait)

/-- n admission requests issued at the same instant (now = 0) on a fresh
client instance: the tracked list after all admissions, and the list of
waits imposed on the 1st through n-th caller. -/
def admissionWaits : Nat → List JNum × List Int
  | 0 => ([], [])
  | n + 1 =>
      let (reqs, waits) := admissionWaits n
      let (reqs2, w) := complyWithLimit reqs 0
      (reqs2, waits ++ [w])

/- ===== Error conditions (exceptions module) ===== -/

/-- Failures the embedded code can raise.  `missingArguments` carries the
missing names as the constructor of MissingArgumentsError receives them;
`remote` is an NSError thrown during send() with its message;
`jsTypeError` is a JavaScript TypeError (calling a method of, iterating, or
spreading `undefined`). -/
inductive NSErr where
  | missingArguments (missing : List String)
  | remote (message : String)
  | jsTypeError
deriving DecidableEq, Repr

/-- Message text of MissingArgumentsError: the constructor is variadic and
send() passes the whole `missing` array as one argument, so
`args.join(', ')` stringifies that array, joining the names with commas. -/
def missingArgumentsMessage (missing : List String) : String :=
  "This request misses the following required arguments: " ++
    String.intercalate "," missing

/-- Message of `new NSError(msg)`: `super(msg || 'There was an error!')`. -/
def nsErrorMessage (msg : JVal) : String :=
  if msg.truthy then msg.toStr else "There was an error!"

/- ===== Argument map (NSRequest.#apiArgs) =====

A plain JavaScript object used as an ordered map: assigning an existing key
updates it in place, a new key is appended. -/

def setEntries : List (String × String) → String → String → List (String × String)
  | [], k, v => [(k, v)]
  | (k0, v0) :: rest, k, v =>
      if k0 = k then (k0, v) :: rest else (k0, v0) :: setEntries rest k v

def getEntries : List (String × String) → String → Option String
  | [], _ => none
  | (k0, v0) :: rest, k => if k0 = k then some v0 else getEntries rest k

structure ArgMap where
  entries : List (String × String)
deriving DecidableEq, Repr

def ArgMap.empty : ArgMap := ⟨[]⟩

def ArgMap.set (m : ArgMap) (k v : String) : ArgMap := ⟨setEntries m.entries k v⟩

def ArgMap.get (m : ArgMap) (k : String) : Option String := getEntries m.entries k

/-- Values passed to `args(key, ...values)`: strings, numbers, arrays of
strings (addShards passes a whole array as one value), `undefined`, or a
parsed value (the two-step command passes the token `JVal`). -/
inductive ArgV where
  | s (v : String)
  | n (v : Int)
  | arr (vs : List String)
  | undefined
  | jval (v : JVal)

/-- Element conversion inside `values.join('+')`: `undefined` becomes the
empty string, an array element is stringified by joining with commas. -/
def ArgV.joinElem : ArgV → String
  | .s v => v
  | .n v => toString v
  | .arr vs => String.intercalate "," vs
  | .undefined => ""
  | .jval v =>
      match v with
      | .undefined => ""
      | w => w.toStr

def joinPlus (vs : List ArgV) : String :=
  String.intercalate "+" (vs.map ArgV.joinElem)

/-- NSRequest.args(key, ...values): a falsy key is ignored (the rest-array
`values` is always truthy), otherwise the joined value overwrites the key. -/
def ArgMap.setArg (m : ArgMap) (k : String) (vs : List ArgV) : ArgMap :=
  if k = "" then m else m.set k (joinPlus vs)

/- ===== Requests ===== -/

/-- State of an NSRequest: the declared-required argument names and the
accumulated argument map.  The API instance reference is not modelled (it
is required at construction and only used to reach the transport). -/
structure Req where
  required : List String
  args : ArgMap
deriving Repr

/-- ShardableRequest.getShards(): `this.getArgument('q')?.split(/\+/g)`. -/
def getShards (m : ArgMap) : Option (List String) :=
  (m.get "q").map (fun s => jsSplit s '+')

/-- ShardableRequest.shard(...shards): `this.args('q', ...shards)`. -/
def shardFn (m : ArgMap) (shards : List ArgV) : ArgMap :=
  m.setArg "q" shards

/-- ShardableRequest.addShards(...shards):
`this.args('q', [...this.getShards(), ...shards])` - spreading an
`undefined` shard list throws a TypeError; otherwise the combined array is
passed as a single argument, so its entries are joined with commas. -/
def addShardsFn (m : ArgMap) (shards : List String) : Except NSErr ArgMap :=
  match getShards m with
  | none => .error .jsTypeError
  | some cur => .ok (shardFn m [.arr (cur ++ shards)])

/-- ShardableRequest.requireShard(shard):
`if(!this.getShards().includes(shard)) this.addShards(shard)` - calling
`.includes` on an `undefined` shard list throws a TypeError. -/
def requireShardFn (m : ArgMap) (shard : String) : Except NSErr ArgMap :=
  match getShards m with
  | none => .error .jsTypeError
  | some cur => if shard ∈ cur then .ok m else addShardsFn m [shard]

/-- WARequest.shard(...shards): if any of the four vote-detail shards is
requested, first requireShard('resolution'), then `super.shard(shards)` -
note the base method receives the whole array as a single argument and
replaces the stored shard list with it. -/
def waShard (m : ArgMap) (shards : List String) : Except NSErr ArgMap :=
  if shards.contains "voters" || shards.contains "votetrack" ||
      shards.contains "dellog" || shards.contains "delvotes" then
    match requireShardFn m "resolution" with
    | .error e => .error e
    | .ok m2 => .ok (shardFn m2 [.arr shards])
  else .ok (shardFn m [.arr shards])

/- ===== Name normalization and request constructors ===== -/

/-- JavaScript String.prototype.toLowerCase, character-wise (the embedded
inputs are ASCII, where `Char.toLower` agrees with the library function). -/
def jsToLowerCase (s : String) : String :=
  String.mk (s.data.map Char.toLower)

/-- String.prototype.replace(/ /g, '_'): every space becomes an underscore. -/
def replaceSpaces (s : String) : String :=
  String.mk (s.data.map fun c => if c = ' ' then '_' else c)

/-- Wire identifier normalization used by the nation, region and command
request constructors: `nname?.toLowerCase().replace(/ /g, '_')`. -/
def normalizeName (s : String) : String :=
  replaceSpaces (jsToLowerCase s)

/-- NationRequest constructor: required = ['nation'], and the normalized
name is stored as the 'nation' argument. -/
def nationRequestNew (nname : String) : Req :=
  { required := ["nation"]
    args := ArgMap.empty.setArg "nation" [.s (normalizeName nname)] }

/-- RegionRequest constructor: required = ['region'], and the normalized
name is stored as the 'region' argument. -/
def regionRequestNew (rname : String) : Req :=
  { required := ["region"]
    args := ArgMap.empty.setArg "region" [.s (normalizeName rname)] }

/-- CommandRequest constructor: required = ['c', 'nation', ...extra], the
normalized name stored as the 'nation' argument.  The credential check
(`if(credential) ... else throw new AuthenticationError()`) is not modelled
here: the claims about commands concern requests that were successfully
constructed, hence authenticated. -/
def commandRequestNew (nname : String) (extraRequired : List String) : Req :=
  { required := ["c", "nation"] ++ extraRequired
    args := ArgMap.empty.setArg "nation" [.s (normalizeName nname)] }

/-- TwoStepCommand constructor: CommandRequest with 'mode' required and the
'mode' argument preset to 'prepare'. -/
def twoStepCommandNew (nname : String) (extraRequired : List String) : Req :=
  let base := commandRequestNew nname ("mode" :: extraRequired)
  { base with args := base.args.setArg "mode" [.s "prepare"] }

/-- VerificationRequest constructor: a NationRequest with 'a' and 'checksum'
also required, a = 'verify' and the checksum stored (an omitted checksum is
`undefined`, which `[undefined].join('+')` turns into the empty string). -/
def verificationRequestNew (nname : String) (checksum : Option String) : Req :=
  { required := ["nation", "a", "checksum"]
    args := ((ArgMap.empty.setArg "nation" [.s (normalizeName nname)]).setArg
        "a" [.s "verify"]).setArg "checksum"
        [match checksum with | some c => .s c | none => .undefined] }

/-- WARequest constructor: required = ['wa'], council ID stored as 'wa'. -/
def waRequestNew (councilID : Int) : Req :=
  { required := ["wa"], args := ArgMap.empty.setArg "wa" [.n councilID] }

/- ===== Credentials (NSCredential) ===== -/

/-- Password / autologin-token / PIN triple; each field may be unset. -/
structure NSCredential where
  pwd : Option String
  auto : Option String
  pin : Option String
deriving DecidableEq, Repr

/-- JavaScript `a || b` where `a` is `headers.get(name)` (null when the
header is absent, its string value otherwise): an absent header and an
empty value are both falsy. -/
def jsOrHeader (v : Option String) (old : Option String) : Option String :=
  match v with
  | some s => if s = "" then old else some s
  | none => old

/-- NSCredential `set fromHeaders(headers)`, applied by the transport after
every successful call when the request carries a credential:
  this.auto = headers.get('X-autologin') || this.auto;
  this.pin  = headers.get('X-pin') || this.pin;
The password field is not touched.  Headers are modelled as a lookup
function returning `none` for an absent header. -/
def NSCredential.fromHeaders (c : NSCredential) (headers : String → Option String) :
    NSCredential :=
  { pwd := c.pwd
    auto := jsOrHeader (headers "X-autologin") c.auto
    pin := jsOrHeader (headers "X-pin") c.pin }

/- ===== The send pipeline ===== -/

/-- The required-but-missing argument set computed at the top of
NSRequest.send(): an argument is missing when
`!(this.getArgument(arg)?.length > 0)`, i.e. when it is unset or empty. -/
def missingArgs (r : Req) : List String :=
  r.required.filter fun a =>
    match r.args.get a with
    | none => true
    | some s => s.length = 0

/-- NSRequest.send().  The transport is modelled as a function from the
call index to the raw response body (the client-side serialization, header
assembly and HTTP status handling of NSAPI.sendRequest are outside the
claims settled here and are taken to succeed), and the xml2js parse as a
function from body to parsed value.  The second component records the
argument snapshot of every transport call actually performed:
  1. if any required argument is missing, throw MissingArgumentsError
     before any network activity;
  2. otherwise perform the transport call; an empty body is an NSError;
  3. parse the body; a truthy root 'ERROR' property throws
     `new NSError(xml['ERROR'][0])`; otherwise the parsed tree is returned. -/
def baseSend (r : Req) (parse : String → JVal) (transport : Nat → String)
    (start : Nat) : Except NSErr JVal × List ArgMap :=
  let missing := missingArgs r
  if missing ≠ [] then (.error (.missingArguments missing), [])
  else
    let res := transport start
    if res = "" then
      (.error (.remote "An unknown error occurred while contacting the NS API!"), [r.args])
    else
      let xml := parse res
      if (xml.getOpt "ERROR").truthy then
        (.error (.remote (nsErrorMessage ((xml.getOpt "ERROR").idx 0))), [r.args])
      else (.ok xml, [r.args])

/-- CommandRequest.send(): `(await super.send())['NATION']`. -/
def commandSend (r : Req) (parse : String → JVal) (transport : Nat → String)
    (start : Nat) : Except NSErr JVal × List ArgMap :=
  match baseSend r parse transport start with
  | (.error e, calls) => (.error e, calls)
  | (.ok xml, calls) => (.ok (xml.getOpt "NATION"), calls)

/-- TwoStepCommand.send():
  let token = (await super.send())['SUCCESS']?.[0];
  if(token) { this.args('mode', 'execute').args('token', token);
              return await super.send(); }
  else throw new NSError('No execution token was returned, ...');
Reading 'SUCCESS' off an `undefined` command result is a TypeError.  The
token `JVal` itself is passed to args(), so join semantics stringify it. -/
def twoStepSend (r : Req) (parse : String → JVal) (transport : Nat → String) :
    Except NSErr JVal × List ArgMap :=
  match commandSend r parse transport 0 with
  | (.error e, calls) => (.error e, calls)
  | (.ok nation, calls1) =>
      match nation with
      | .undefined => (.error .jsTypeError, calls1)
      | n =>
          let token := (n.getOpt "SUCCESS").idx 0
          if token.truthy then
            let args2 := (r.args.setArg "mode" [.s "execute"]).setArg "token" [.jval token]
            let r2 : Req := { r with args := args2 }
            match commandSend r2 parse transport 1 with
            | (res2, calls2) => (res2, calls1 ++ calls2)
          else
            (.error (.remote "No execution token was returned, something must have gone wrong!"),
              calls1)

/- ===== JavaScript loose equality of a string against a small number =====

The verification branch compares the trimmed response body to the numbers
1 and 0 with `==`: the string goes through ToNumber, whose
StringNumericLiteral grammar is (after whitespace trimming): the empty
string (value 0); an optionally signed decimal literal
`digits [. digits] [e sign digits]`, `. digits [e sign digits]` or
`Infinity`; or an unsigned radix literal `0x / 0o / 0b digits`.  Anything
else is NaN.  The exact value of a parsed literal is kept symbolically
(sign, digit lists and exponent, or a radix value, or an infinity), which
is enough to decide equality against an integer without rational
arithmetic. -/

def isHexDigit (c : Char) : Bool :=
  c.isDigit || ('a' ≤ c && c ≤ 'f') || ('A' ≤ c && c ≤ 'F')

def isOctDigit (c : Char) : Bool := '0' ≤ c && c ≤ '7'

def isBinDigit (c : Char) : Bool := c = '0' || c = '1'

def hexDigitVal (c : Char) : Nat :=
  if c.isDigit then c.toNat - 48
  else if 'a' ≤ c && c ≤ 'f' then c.toNat - 87
  else c.toNat - 55

/-- Value of a digit list in the given base. -/
def digitsValBase (b : Nat) (l : List Char) : Nat :=
  l.foldl (fun a c => a * b + hexDigitVal c) 0

/-- A successfully parsed JavaScript string numeric literal: a signed
decimal mantissa with a decimal exponent, an unsigned radix (hex / octal /
binary) integer, or a signed infinity. -/
inductive JSNum where
  | dec (neg : Bool) (intPart fracPart : List Char) (exp : Int)
  | radix (val : Nat)
  | inf (neg : Bool)

/-- Exponent part of a decimal literal: `e` / `E`, an optional sign and at
least one digit, reaching the end of the string. -/
def parseExpPart (l : List Char) : Option Int :=
  let (eneg, r) :=
    match l with
    | '-' :: r => (true, r)
    | '+' :: r => (false, r)
    | r => (false, r)
  if r ≠ [] && r.all Char.isDigit then
    some (if eneg then -(digitsVal r : Int) else (digitsVal r : Int))
  else none

/-- Unsigned decimal literal after the sign: `digits [. digits] [exp]` or
`. digits [exp]`, with at least one mantissa digit. -/
def parseDecTail (neg : Bool) (l : List Char) : Option JSNum :=
  let ip := l.takeWhile Char.isDigit
  let r1 := l.dropWhile Char.isDigit
  match r1 with
  | [] => if ip = [] then none else some (.dec neg ip [] 0)
  | '.' :: r2 =>
      let fp := r2.takeWhile Char.isDigit
      let r3 := r2.dropWhile Char.isDigit
      if ip = [] && fp = [] then none
      else
        match r3 with
        | [] => some (.dec neg ip fp 0)
        | e :: r4 =>
            if e = 'e' || e = 'E' then
              (parseExpPart r4).map (fun ex => .dec neg ip fp ex)
            else none
  | e :: r2 =>
      if (e = 'e' || e = 'E') && ip ≠ [] then
        (parseExpPart r2).map (fun ex => .dec neg ip [] ex)
      else none

/-- JavaScript ToNumber on a string; `none` is NaN. -/
def jsToNumber (s : String) : Option JSNum :=
  match (jsTrim s).data with
  | [] => some (.dec false [] [] 0)
  | '0' :: x :: rest =>
      if x = 'x' || x = 'X' then
        if rest ≠ [] && rest.all isHexDigit then some (.radix (digitsValBase 16 rest))
        else none
      else if x = 'o' || x = 'O' then
        if rest ≠ [] && rest.all isOctDigit then some (.radix (digitsValBase 8 rest))
        else none
      else if x = 'b' || x = 'B' then
        if rest ≠ [] && rest.all isBinDigit then some (.radix (digitsValBase 2 rest))
        else none
      else parseDecTail false ('0' :: x :: rest)
  | '-' :: r =>
      if r = "Infinity".data then some (.inf true) else parseDecTail true r
  | '+' :: r =>
      if r = "Infinity".data then some (.inf false) else parseDecTail false r
  | t =>
      if t = "Infinity".data then some (.inf false) else parseDecTail false t

/-- Whether a parsed literal's value equals the integer n: an infinity
never does; a radix integer compares directly; a decimal
`sign mant * 10 ^ (exp - |frac|)` is compared by clearing the power of ten
to whichever side keeps the arithmetic integral. -/
def JSNum.eqInt : JSNum → Int → Bool
  | .inf _, _ => false
  | .radix v, n => (v : Int) == n
  | .dec neg ip fp e, n =>
      let mant : Int := (digitsVal (ip ++ fp) : Nat)
      let signed : Int := if neg then -mant else mant
      let ex : Int := e - fp.length
      if 0 ≤ ex then signed * (10 : Int) ^ ex.toNat == n
      else signed == n * (10 : Int) ^ (-ex).toNat

/-- JavaScript `s == n` for a string and an integer n: ToNumber(s)
compared to n; false when ToNumber(s) is NaN. -/
def jsLooseEq (s : String) (n : Int) : Bool :=
  match jsToNumber s with
  | none => false
  | some v => v.eqInt n

/- ===== Nation decoder (Responses.Nation) ===== -/

/-- Projection of a decoded Nation onto the fields the claims exercise.
The source constructor declares about seventy shard-gated private fields;
each `switch` case assigns exactly the field belonging to its shard, so
restricting the model to these fields is a faithful projection: the omitted
cases touch none of them.  `verified` is `num(res, 'VERIFY') == 1`,
assigned unconditionally after the loop. -/
structure NationView where
  name : Option String := none
  population : Option Int := none
  region : Option String := none
  motto : Option String := none
  flag : Option String := none
  verified : Bool := false
deriving DecidableEq, Repr

/-- One iteration of the shard switch, for the modelled fields (shard wire
names from the NationShard enum). -/
def nationApplyShard (res : JVal) (v : NationView) (shard : String) : NationView :=
  if shard = "name" then { v with name := txtTag res "NAME" 0 }
  else if shard = "population" then { v with population := numTag res "POPULATION" }
  else if shard = "region" then { v with region := txtTag res "REGION" 0 }
  else if shard = "motto" then { v with motto := txtTag res "MOTTO" 0 }
  else if shard = "flag" then { v with flag := txtTag res "FLAG" 0 }
  else v

/-- What the Nation constructor receives as its first parameter: a real
request object (on which `getShards()` works), or - through the miswired
call in NationRequest.send() - a parsed XML value, which has no
`getShards` method, so calling it throws a TypeError. -/
inductive NationCtorReq where
  | fromReq (args : ArgMap)
  | fromJVal (v : JVal)

def nationCtorShards : NationCtorReq → Except NSErr (Option (List String))
  | .fromReq m => .ok (getShards m)
  | .fromJVal _ => .error .jsTypeError

/-- The Nation constructor: `for(let shard of req.getShards()) switch ...`
(iterating an `undefined` shard list throws a TypeError), then the
unconditional `this.#verified = num(res, 'VERIFY') == 1`. -/
def nationConstruct (req : NationCtorReq) (res : JVal) : Except NSErr NationView :=
  match nationCtorShards req with
  | .error e => .error e
  | .ok none => .error .jsTypeError
  | .ok (some shards) =>
      .ok { shards.foldl (nationApplyShard res) {} with
            verified := numTag res "VERIFY" == some 1 }

/-- NationRequest.send():
  return new Responses.Nation((this, await super.send())['NATION']);
The comma operator evaluates to the awaited parse result, so the
constructor is called with a single argument: the parsed document's
'NATION' subtree is bound to the constructor's `req` parameter and its
`res` parameter is `undefined`. -/
def nationRequestSend (r : Req) (parse : String → JVal) (transport : Nat → String) :
    Except NSErr NationView × List ArgMap :=
  match baseSend r parse transport 0 with
  | (.error e, calls) => (.error e, calls)
  | (.ok xml, calls) =>
      (nationConstruct (.fromJVal (xml.getOpt "NATION")) JVal.undefined, calls)

/- ===== Verification request ===== -/

inductive VerifyOutcome where
  | asBool (b : Bool)
  | asNation (n : NationView)
deriving DecidableEq, Repr

/-- VerificationRequest.send():
  let res = (await this.api.sendRequest(this)).trim();
  if(res == 1) return true;
  else if(res == 0) return false;
  else return new Responses.Nation(this, (await parser.parseStringPromise(res))['NATION']);
It calls the transport directly - no required-argument validation and no
root-ERROR check happen - and compares the trimmed body to the numbers 1
and 0 with JavaScript loose equality. -/
def verificationSend (r : Req) (parse : String → JVal) (transport : Nat → String) :
    Except NSErr VerifyOutcome × List ArgMap :=
  let res := jsTrim (transport 0)
  if jsLooseEq res 1 then (.ok (.asBool true), [r.args])
  else if jsLooseEq res 0 then (.ok (.asBool false), [r.args])
  else
    match nationConstruct (.fromReq r.args) ((parse res).getOpt "NATION") with
    | .ok n => (.ok (.asNation n), [r.args])
    | .error e => (.error e, [r.args])

/- ===== Region / World / WorldAssembly decoders (count-vs-list fields) =====

As for Nation, each decoder is projected onto the fields its claims
exercise; every omitted switch case assigns only fields outside this
projection.  The `X || Y` getters are JavaScript: `X` falsy (undefined or
0) falls through to `Y`, and reading `.length` of an undefined list throws
a TypeError. -/

lemma getEntries_setEntries (l : List (String × String)) (k v a : String) :
    getEntries (setEntries l k v) a = if a = k then some v else getEntries l a := by
  induction l with
  | nil =>
      show (if k = a then some v else none) = if a = k then some v else none
      by_cases h : k = a
      · rw [if_pos h, if_pos h.symm]
      · rw [if_neg h, if_neg (fun hh => h hh.symm)]
  | cons p rest ih =>
      obtain ⟨k0, v0⟩ := p
      show getEntries (if k0 = k then (k0, v) :: rest
          else (k0, v0) :: setEntries rest k v) a = _
      by_cases h0 : k0 = k
      · subst h0
        rw [if_pos rfl]
        show (if k0 = a then some v else getEntries rest a) =
          if a = k0 then some v else if k0 = a then some v0 else getEntries rest a
        by_cases h : k0 = a
        · rw [if_pos h, if_pos h.symm]
        · rw [if_neg h, if_neg (fun hh => h hh.symm), if_neg h]
      · rw [if_neg h0]
        show (if k0 = a then some v0 else getEntries (setEntries rest k v) a) =
          if a = k then some v else if k0 = a then some v0 else getEntries rest a
        rw [ih]
        by_cases h : k0 = a
        · subst h
          rw [if_pos rfl, if_neg (fun hh => h0 hh), if_pos rfl]
        · rw [if_neg h]
          by_cases hak : a = k
          · rw [if_pos hak, if_pos hak]
          · rw [if_neg hak, if_neg hak, if_neg h]

lemma ArgMap.get_setArg (m : ArgMap) (k : String) (hk : k ≠ "") (vs : List ArgV)
    (a : String) :
    (m.setArg k vs).get a = if a = k then some (joinPlus vs) else m.get a := by
  unfold ArgMap.setArg
  rw [if_neg hk]
  exact getEntries_setEntries m.entries k (joinPlus vs) a

lemma string_ne_empty_length {s : String} (h : s ≠ "") : s.length ≠ 0 := by
  cases s with
  | mk data =>
      intro h0
      apply h
      have hd : data = [] := List.length_eq_zero.mp h0
      subst hd
      rfl

lemma missingArgs_forall {r : Req} (h : missingArgs r = []) :
    ∀ a ∈ r.required, ∃ s, r.args.get a = some s ∧ s.length ≠ 0 := by
  intro a ha
  have hp := List.filter_eq_nil_iff.mp h a ha
  match hg : r.args.get a with
  | none => simp [hg] at hp
  | some s =>
      refine ⟨s, rfl, ?_⟩
      simp [hg] at hp
      exact hp

lemma missingArgs_of_forall {r : Req}
    (h : ∀ a ∈ r.required, ∃ s, r.args.get a = some s ∧ s.length ≠ 0) :
    missingArgs r = [] := by
  apply List.filter_eq_nil_iff.mpr
  intro a ha
  obtain ⟨s, hg, hs⟩ := h a ha
  simp [hg, hs]

lemma baseSend_ok (r : Req) (parse : String → JVal) (transport : Nat → String)
    (start : Nat) (hm : missingArgs r = []) (hb : transport start ≠ "")
    (he : ((parse (transport start)).getOpt "ERROR").truthy = false) :
    baseSend r parse transport start = (.ok (parse (transport start)), [r.args]) := by
  simp only [baseSend]
  rw [if_neg (by simp [hm]), if_neg hb, if_neg (by simp [he])]

lemma baseSend_calls (r : Req) (parse : String → JVal) (transport : Nat → String)
    (start : Nat) (hm : missingArgs r = []) :
    (baseSend r parse transport start).2 = [r.args] := by
  simp only [baseSend]
  rw [if_neg (by simp [hm])]
  split_ifs <;> rfl

lemma commandSend_ok (r : Req) (parse : String → JVal) (transport : Nat → String)
    (start : Nat) (hm : missingArgs r = []) (hb : transport start ≠ "")
    (he : ((parse (transport start)).getOpt "ERROR").truthy = false) :
    commandSend r parse transport start =
      (.ok ((parse (transport start)).getOpt "NATION"), [r.args]) := by
  unfold commandSend
  rw [baseSend_ok r parse transport start hm hb he]

lemma commandSend_calls (r : Req) (parse : String → JVal) (transport : Nat → String)
    (start : Nat) (hm : missingArgs r = []) :
    (commandSend r parse transport start).2 = [r.args] := by
  unfold commandSend
  have hc := baseSend_calls r parse transport start hm
  rcases hb : baseSend r parse transport start with ⟨res, calls⟩
  rw [hb] at hc
  cases res <;> simpa using hc

/-- After the two-step command switches to execute mode and stores a
non-empty token, no required argument is missing if none was before. -/
lemma missingArgs_after_execute (r : Req) (t : String) (hm : missingArgs r = [])
    (ht : t ≠ "") :
    missingArgs { r with
      args := (r.args.setArg "mode" [.s "execute"]).setArg "token" [.jval (.str t)] } = [] := by
  apply missingArgs_of_forall
  intro a ha
  have hall := missingArgs_forall hm
  rw [ArgMap.get_setArg _ _ (by decide) _ a, ArgMap.get_setArg _ _ (by decide) _ a]
  by_cases hat : a = "token"
  · refine ⟨joinPlus [.jval (.str t)], by rw [if_pos hat], ?_⟩
    show t.length ≠ 0
    exact string_ne_empty_length ht
  · rw [if_neg hat]
    by_cases ham : a = "mode"
    · exact ⟨joinPlus [.s "execute"], by rw [if_pos ham], by decide⟩
    · rw [if_neg ham]
      exact hall a ha

/- Generic facts about shard-switch folds: a projection no case assigns is
preserved, and a projection some present shard assigns to a fixed value
ends up with that value. -/

/-- C1: the claim says 49 simultaneous admissions resolve with zero wait
and the 50th waits until the 1st slot has aged past the 30000 ms period.
The code reads the quota and period off the `#requests` array - where they
are `undefined` - instead of `#ratelimit`, so the quota comparison is never
true: evaluating 50 admissions issued at the same instant on a fresh client
shows every wait, including the 50th, is 0 rather than 30000 ms. -/
theorem complyWithLimit_never_waits :
    (admissionWaits 50).2 = List.replicate 50 0 ∧
    (admissionWaits 50).2.getD 49 (-1) ≠ 30000 := by
  constructor
  · decide
  · decide

/-- C6: the claim says a 200-status response whose root is an ERROR tag
fails with a RemoteError carrying that tag's text.  xml2js parses the
text-only root `<ERROR>Invalid command</ERROR>` to the plain string
'Invalid command', so `xml['ERROR'][0]` is its first character: the thrown
NSError carries the message 'I', not the tag's text. -/
theorem root_error_message_truncated :
    (baseSend { required := [], args := ArgMap.empty }
        (fun s => if s = "<ERROR>Invalid command</ERROR>" then
          JVal.obj [("ERROR", JVal.str "Invalid command")] else JVal.undefined)
        (fun _ => "<ERROR>Invalid command</ERROR>") 0).1 =
      .error (.remote "I") ∧
    "I" ≠ "Invalid command" := by
  exact ⟨rfl, by decide⟩

/-- C7: the claim says that after any WARequest.shard() call naming one of
the voters / votetrack / dellog / delvotes shards, the shard list also
contains 'resolution'.  In the code, requireShard runs before the base
shard() replaces the whole list: on a fresh request it throws a TypeError
(getShards() is undefined), and on a request that already holds the
resolution shard the subsequent replacement drops it, leaving exactly
['voters']. -/
theorem wa_shard_does_not_imply_resolution :
    waShard (waRequestNew 1).args ["voters"] = .error .jsTypeError ∧
    ((waShard (waRequestNew 1).args ["resolution"]).bind
        (fun m => waShard m ["voters"])).map getShards = .ok (some ["voters"]) ∧
    "resolution" ∉ (["voters"] : List String) := by
  exact ⟨rfl, rfl, by decide⟩

/-- C8: every nation, region, and command request constructor stores the
input name lower-cased with every space replaced by an underscore as its
wire identifier argument; character-wise, normalization maps each character
to its lower-case form, with a space becoming an underscore; in particular
'New Leftopia' becomes 'new_leftopia'. -/
theorem constructors_normalize_resource_names :
    (∀ s : String, (nationRequestNew s).args.get "nation" = some (normalizeName s)) ∧
    (∀ s : String, (regionRequestNew s).args.get "region" = some (normalizeName s)) ∧
    (∀ (s : String) (extra : List String),
      (commandRequestNew s extra).args.get "nation" = some (normalizeName s)) ∧
    (∀ s : String, (normalizeName s).data =
      s.data.map (fun c => if c.toLower = ' ' then '_' else c.toLower)) ∧
    normalizeName "New Leftopia" = "new_leftopia" := by
  refine ⟨fun s => rfl, fun s => rfl, fun s extra => rfl, fun s => ?_, by decide⟩
  show ((s.data.map Char.toLower).map fun c => if c = ' ' then '_' else c) = _
  rw [List.map_map]
  rfl

/-- C2 counterexample: VerificationRequest overrides send() to call the
transport directly, skipping the required-argument validation.  A
verification request constructed without a checksum has the required
argument 'checksum' empty, yet send() performs a transport call and
resolves (here to `true`) instead of failing with MissingArgumentsError. -/
theorem verification_send_bypasses_validation :
    missingArgs (verificationRequestNew "testlandia" none) = ["checksum"] ∧
    (verificationSend (verificationRequestNew "testlandia" none)
        (fun _ => JVal.undefined) (fun _ => "1")).1 = .ok (.asBool true) ∧
    (verificationSend (verificationRequestNew "testlandia" none)
        (fun _ => JVal.undefined) (fun _ => "1")).2.length = 1 := by
  exact ⟨by decide, rfl, rfl⟩

/-- C2 (amended): for every request whose send() delegates to the base
NSRequest.send validation (all of them except VerificationRequest and
UserAgentRequest, whose overrides bypass it), if any declared-required
argument is unset or empty, send() fails with a MissingArgumentsError
naming exactly the missing arguments, and performs no transport call. -/
theorem base_send_missing_arguments (r : Req) (parse : String → JVal)
    (transport : Nat → String) (start : Nat) (h : missingArgs r ≠ []) :
    baseSend r parse transport start =
      (.error (.missingArguments (missingArgs r)), []) := by
  simp only [baseSend]
  rw [if_pos h]

/-- C2 witness: a nation request whose 'nation' argument was never set
fails with MissingArgumentsError naming 'nation' and makes no call. -/
theorem base_send_missing_arguments_witness :
    baseSend { required := ["nation"], args := ArgMap.empty }
        (fun _ => JVal.undefined) (fun _ => "<NATION></NATION>") 0 =
      (.error (.missingArguments ["nation"]), []) :=
  base_send_missing_arguments
    { required := ["nation"], args := ArgMap.empty }
    (fun _ => JVal.undefined) (fun _ => "<NATION></NATION>") 0 (by decide)

/-- C4: the claim says a nation request for shards {NAME, POPULATION}
decodes into a Nation with name and population populated and other fields
undefined.  NationRequest.send() contains a misplaced parenthesis -
`new Responses.Nation((this, await super.send())['NATION'])` - so the comma
operator discards `this` and the constructor receives the parsed 'NATION'
subtree as its request parameter and `undefined` as its response: it
immediately throws a TypeError (no `getShards` method), and no Nation is
ever produced.  The second conjunct shows the decoder itself implements the
claimed shard gating when it is invoked the way the sibling resource
classes invoke it (with the request first): name and population are
populated and unrequested fields stay undefined even though a FLAG tag is
present in the body. -/
theorem nation_request_send_miswired :
    (nationRequestSend
        { required := ["nation"],
          args := (ArgMap.empty.setArg "nation" [.s "testlandia"]).setArg "q"
            [.s "name", .s "population"] }
        (fun s => if s = "<NATION>testbody</NATION>" then
          JVal.obj [("NATION", JVal.obj [("NAME", JVal.arr [JVal.str "Testlandia"]),
            ("POPULATION", JVal.arr [JVal.str "39471"]),
            ("FLAG", JVal.arr [JVal.str "testlandia.png"])])] else JVal.undefined)
        (fun _ => "<NATION>testbody</NATION>")).1 = .error .jsTypeError ∧
    nationConstruct
        (.fromReq ((ArgMap.empty.setArg "nation" [.s "testlandia"]).setArg "q"
          [.s "name", .s "population"]))
        (JVal.obj [("NAME", JVal.arr [JVal.str "Testlandia"]),
          ("POPULATION", JVal.arr [JVal.str "39471"]),
          ("FLAG", JVal.arr [JVal.str "testlandia.png"])]) =
      .ok { name := some "Testlandia", population := some 39471, region := none,
            motto := none, flag := none, verified := false } := by
  exact ⟨rfl, rfl⟩

/-- C9 counterexample: the claim says autologin is overwritten from the
X-autologin header whenever that header is present.  A present but empty
header value is falsy, so `headers.get('X-autologin') || this.auto` keeps
the previous token instead of overwriting it. -/
theorem credential_refresh_ignores_empty_header :
    (fun k => if k = "X-autologin" then some "" else none : String → Option String)
        "X-autologin" = some "" ∧
    (NSCredential.fromHeaders
        { pwd := some "hunter2", auto := some "old-token", pin := some "1234" }
        (fun k => if k = "X-autologin" then some "" else none)).auto =
      some "old-token" ∧
    (NSCredential.fromHeaders
        { pwd := some "hunter2", auto := some "old-token", pin := some "1234" }
        (fun k => if k = "X-autologin" then some "" else none)).auto ≠ some "" := by
  exact ⟨rfl, rfl, by decide⟩

/-- C9 (amended): the credential refresh applied by the transport after a
successful call updates only the autologin and pin fields: each is
overwritten from the X-autologin / X-pin response header when that header
is present with a non-empty value, keeps its previous value when the
header is absent or empty, and the password field is never modified. -/
theorem credential_refresh_amended (c : NSCredential) (h : String → Option String) :
    (c.fromHeaders h).pwd = c.pwd ∧
    (∀ s, h "X-autologin" = some s → s ≠ "" → (c.fromHeaders h).auto = some s) ∧
    ((h "X-autologin" = none ∨ h "X-autologin" = some "") →
      (c.fromHeaders h).auto = c.auto) ∧
    (∀ s, h "X-pin" = some s → s ≠ "" → (c.fromHeaders h).pin = some s) ∧
    ((h "X-pin" = none ∨ h "X-pin" = some "") → (c.fromHeaders h).pin = c.pin) := by
  refine ⟨rfl, ?_, ?_, ?_, ?_⟩
  · intro s hs hne
    show jsOrHeader (h "X-autologin") c.auto = some s
    rw [hs]
    simp [jsOrHeader, hne]
  · intro hcase
    show jsOrHeader (h "X-autologin") c.auto = c.auto
    rcases hcase with hc | hc <;> rw [hc] <;> simp [jsOrHeader]
  · intro s hs hne
    show jsOrHeader (h "X-pin") c.pin = some s
    rw [hs]
    simp [jsOrHeader, hne]
  · intro hcase
    show jsOrHeader (h "X-pin") c.pin = c.pin
    rcases hcase with hc | hc <;> rw [hc] <;> simp [jsOrHeader]

/-- C9 witness: with a fresh non-empty X-autologin header and no X-pin
header, the password stays, the token is rotated and the pin is kept. -/
theorem credential_refresh_amended_witness :
    (NSCredential.fromHeaders
        { pwd := some "hunter2", auto := some "old-token", pin := some "1234" }
        (fun k => if k = "X-autologin" then some "fresh-token" else none)).pwd =
      some "hunter2" ∧
    (NSCredential.fromHeaders
        { pwd := some "hunter2", auto := some "old-token", pin := some "1234" }
        (fun k => if k = "X-autologin" then some "fresh-token" else none)).auto =
      some "fresh-token" ∧
    (NSCredential.fromHeaders
        { pwd := some "hunter2", auto := some "old-token", pin := some "1234" }
        (fun k => if k = "X-autologin" then some "fresh-token" else none)).pin =
      some "1234" := by
  obtain ⟨h1, h2, _, _, h5⟩ := credential_refresh_amended
    { pwd := some "hunter2", auto := some "old-token", pin := some "1234" }
    (fun k => if k = "X-autologin" then some "fresh-token" else none)
  exact ⟨h1.trans rfl, h2 "fresh-token" rfl (by decide), (h5 (Or.inl rfl)).trans rfl⟩

/-- C5 counterexample: the claim says only the exact bodies '1' and '0'
yield booleans and any other body is parsed as nation XML.  The comparison
in the code is JavaScript loose equality (`res == 1`), so the body '01' -
neither exactly '1' nor exactly '0' - also resolves to boolean true and is
never XML-parsed. -/
theorem verification_send_loose_equality_cex :
    ("01" ≠ "1" ∧ "01" ≠ "0") ∧
    (verificationSend (verificationRequestNew "testlandia" (some "123456789"))
        (fun _ => JVal.undefined) (fun _ => "01")).1 = .ok (.asBool true) := by
  exact ⟨⟨by decide, by decide⟩, rfl⟩

/-- No string is loosely equal to both 0 and 1: a parsed literal has one
value, so `res == 1` and `res == 0` cannot both hold (in the code the
`== 1` branch is checked first). -/
lemma jsLooseEq_zero_one (s : String) (h : jsLooseEq s 0 = true) :
    jsLooseEq s 1 = false := by
  unfold jsLooseEq at h ⊢
  cases hv : jsToNumber s with
  | none =>
      rw [hv] at h
  | some v =>
      rw [hv] at h
      show JSNum.eqInt v 1 = false
      replace h : JSNum.eqInt v 0 = true := h
      cases v with
      | inf b => exact Bool.noConfusion h
      | radix val =>
          simp only [JSNum.eqInt, beq_iff_eq] at h
          simp only [JSNum.eqInt, h]
          decide
      | dec neg ip fp e =>
          simp only [JSNum.eqInt] at h ⊢
          split_ifs at h ⊢ <;>
            rw [beq_iff_eq] at h <;>
            rw [beq_eq_false_iff_ne] <;>
            first
            | (rw [h]; decide)
            | (rw [zero_mul] at h
               rw [one_mul, h]
               exact ne_of_lt (pow_pos (by norm_num) _))

/-- C5 (amended): every trimmed body loosely equal (JavaScript ==) to the
number 1 - the exact body '1', but also e.g. '01', '1.0', '+1' or '1e0' -
yields boolean true; every body loosely equal to 0 yields boolean false;
and a body loosely equal to neither is parsed as a full nation XML
document and decoded by the Nation constructor (succeeding when the
request has a shard list set). -/
theorem verification_send_amended (r : Req) (parse : String → JVal)
    (transport : Nat → String) :
    (jsLooseEq (jsTrim (transport 0)) 1 = true →
      (verificationSend r parse transport).1 = .ok (.asBool true)) ∧
    (jsLooseEq (jsTrim (transport 0)) 0 = true →
      (verificationSend r parse transport).1 = .ok (.asBool false)) ∧
    (jsLooseEq (jsTrim (transport 0)) 1 = false →
      jsLooseEq (jsTrim (transport 0)) 0 = false →
      (verificationSend r parse transport).1 =
        (nationConstruct (.fromReq r.args)
          ((parse (jsTrim (transport 0))).getOpt "NATION")).map VerifyOutcome.asNation) := by
  refine ⟨fun h => ?_, fun h => ?_, fun h1 h0 => ?_⟩
  · simp only [verificationSend, h, if_true]
  · have h1 := jsLooseEq_zero_one _ h
    simp only [verificationSend, h1, Bool.false_eq_true, if_false, h, if_true]
  · simp only [verificationSend, h1, h0, Bool.false_eq_true, if_false]
    cases hn : nationConstruct (.fromReq r.args)
        ((parse (jsTrim (transport 0))).getOpt "NATION") <;>
      simp [hn, Except.map]

/-- C5 witness inputs: a verification request with a shard list set, and a
parse oracle for one concrete nation body. -/
def verReqSharded : Req :=
  let base := verificationRequestNew "testlandia" (some "123456789")
  { base with args := base.args.setArg "q" [.s "name"] }

def verParseOracle : String → JVal := fun s =>
  if s = "<NATION><NAME>Testlandia</NAME></NATION>" then
    JVal.obj [("NATION", JVal.obj [("NAME", JVal.arr [JVal.str "Testlandia"])])]
  else JVal.undefined

/-- C5 witness: the three branches evaluated on concrete transports - the
body '1', the body '0', and a nation XML body on a request with a shard
list set. -/
theorem verification_send_amended_witness :
    (verificationSend verReqSharded verParseOracle (fun _ => "1")).1 =
      .ok (.asBool true) ∧
    (verificationSend verReqSharded verParseOracle (fun _ => "0")).1 =
      .ok (.asBool false) ∧
    (verificationSend verReqSharded verParseOracle
        (fun _ => "<NATION><NAME>Testlandia</NAME></NATION>")).1 =
      .ok (.asNation
        { name := some "Testlandia", population := none, region := none,
          motto := none, flag := none, verified := false }) := by
  refine ⟨(verification_send_amended verReqSharded verParseOracle _).1 (by decide),
    (verification_send_amended verReqSharded verParseOracle _).2.1 (by decide),
    ((verification_send_amended verReqSharded verParseOracle _).2.2
      (by decide) (by decide)).trans rfl⟩

/-- C3: for every two-step command, when the prepare response carries a
non-empty execution token (NATION.SUCCESS[0]), send() performs exactly two
underlying transport calls - the first with the request's arguments (whose
mode is 'prepare'), the second with mode = 'execute' and the literal token
- and when the prepare response carries no truthy token, send() fails
having performed exactly one transport call, never attempting execute. -/
theorem two_step_send_protocol (r : Req) (parse : String → JVal)
    (transport : Nat → String) :
    (∀ t : String,
      missingArgs r = [] →
      r.args.get "mode" = some "prepare" →
      transport 0 ≠ "" →
      ((parse (transport 0)).getOpt "ERROR").truthy = false →
      (((parse (transport 0)).getOpt "NATION").getOpt "SUCCESS").idx 0 = .str t →
      t ≠ "" →
      (twoStepSend r parse transport).2.length = 2 ∧
      (twoStepSend r parse transport).2.get? 0 = some r.args ∧
      r.args.get "mode" = some "prepare" ∧
      (∃ m2, (twoStepSend r parse transport).2.get? 1 = some m2 ∧
        m2.get "mode" = some "execute" ∧ m2.get "token" = some t)) ∧
    (missingArgs r = [] →
      transport 0 ≠ "" →
      ((parse (transport 0)).getOpt "ERROR").truthy = false →
      ((((parse (transport 0)).getOpt "NATION").getOpt "SUCCESS").idx 0).truthy = false →
      (∃ e, (twoStepSend r parse transport).1 = .error e) ∧
      (twoStepSend r parse transport).2.length = 1) := by
  have hcmd : ∀ hm : missingArgs r = [], transport 0 ≠ "" →
      ((parse (transport 0)).getOpt "ERROR").truthy = false →
      commandSend r parse transport 0 =
        (.ok ((parse (transport 0)).getOpt "NATION"), [r.args]) :=
    fun hm hb he => commandSend_ok r parse transport 0 hm hb he
  constructor
  · intro t hm hmode hb he hsucc ht
    -- the NATION subtree must be an object for SUCCESS[0] to be a string
    obtain ⟨fs, hnv⟩ : ∃ fs, (parse (transport 0)).getOpt "NATION" = .obj fs := by
      cases hn : (parse (transport 0)).getOpt "NATION" with
      | undefined => rw [hn] at hsucc; exact absurd hsucc (by simp [JVal.getOpt, JVal.idx])
      | str s => rw [hn] at hsucc; exact absurd hsucc (by simp [JVal.getOpt, JVal.idx])
      | arr xs => rw [hn] at hsucc; exact absurd hsucc (by simp [JVal.getOpt, JVal.idx])
      | obj fs => exact ⟨fs, rfl⟩
    rw [hnv] at hsucc
    have htt : (((JVal.obj fs).getOpt "SUCCESS").idx 0).truthy = true := by
      rw [hsucc]
      simp [JVal.truthy, ht]
    have hm2 := missingArgs_after_execute r t hm ht
    have hres : twoStepSend r parse transport =
        ((commandSend { r with
            args := (r.args.setArg "mode" [.s "execute"]).setArg "token"
              [.jval (((JVal.obj fs).getOpt "SUCCESS").idx 0)] } parse transport 1).1,
          [r.args] ++ (commandSend { r with
            args := (r.args.setArg "mode" [.s "execute"]).setArg "token"
              [.jval (((JVal.obj fs).getOpt "SUCCESS").idx 0)] } parse transport 1).2) := by
      unfold twoStepSend
      rw [hcmd hm hb he, hnv]
      simp only [htt, if_true]
    rw [hres]
    have hcalls := commandSend_calls { r with
        args := (r.args.setArg "mode" [.s "execute"]).setArg "token"
          [.jval (((JVal.obj fs).getOpt "SUCCESS").idx 0)] } parse transport 1
      (by rw [hsucc]; exact hm2)
    rw [hsucc] at hcalls ⊢
    refine ⟨by rw [hcalls]; rfl, by rw [hcalls]; rfl, hmode,
      ⟨(r.args.setArg "mode" [.s "execute"]).setArg "token" [.jval (.str t)],
        by rw [hcalls]; rfl, ?_, ?_⟩⟩
    · rw [ArgMap.get_setArg _ _ (by decide) _ _, if_neg (by decide),
        ArgMap.get_setArg _ _ (by decide) _ _, if_pos rfl]
      rfl
    · rw [ArgMap.get_setArg _ _ (by decide) _ _, if_pos rfl]
      rfl
  · intro hm hb he hfalse
    cases hn : (parse (transport 0)).getOpt "NATION" with
    | undefined =>
        have hres : twoStepSend r parse transport = (.error .jsTypeError, [r.args]) := by
          unfold twoStepSend
          rw [hcmd hm hb he, hn]
        rw [hres]
        exact ⟨⟨.jsTypeError, rfl⟩, rfl⟩
    | str s =>
        rw [hn] at hfalse
        have hres : twoStepSend r parse transport =
            (.error (.remote "No execution token was returned, something must have gone wrong!"),
              [r.args]) := by
          unfold twoStepSend
          rw [hcmd hm hb he, hn]
          simp only [hfalse, Bool.false_eq_true, if_false]
        rw [hres]
        exact ⟨⟨_, rfl⟩, rfl⟩
    | arr xs =>
        rw [hn] at hfalse
        have hres : twoStepSend r parse transport =
            (.error (.remote "No execution token was returned, something must have gone wrong!"),
              [r.args]) := by
          unfold twoStepSend
          rw [hcmd hm hb he, hn]
          simp only [hfalse, Bool.false_eq_true, if_false]
        rw [hres]
        exact ⟨⟨_, rfl⟩, rfl⟩
    | obj fs =>
        rw [hn] at hfalse
        have hres : twoStepSend r parse transport =
            (.error (.remote "No execution token was returned, something must have gone wrong!"),
              [r.args]) := by
          unfold twoStepSend
          rw [hcmd hm hb he, hn]
          simp only [hfalse, Bool.false_eq_true, if_false]
        rw [hres]
        exact ⟨⟨_, rfl⟩, rfl⟩

/-- C3 witness inputs: a dispatch-style two-step command (required
arguments all set, mode preset to 'prepare'), a transport answering the
first call with a token-bearing body and the second with a success body,
and a second transport whose response carries no token. -/
def twoStepReqC3 : Req :=
  let base := twoStepCommandNew "testlandia" ["dispatch"]
  { base with args := (base.args.setArg "c" [.s "dispatch"]).setArg "dispatch" [.s "add"] }

def parseC3 : String → JVal := fun s =>
  if s = "<NATION><SUCCESS>token123</SUCCESS></NATION>" then
    JVal.obj [("NATION", JVal.obj [("SUCCESS", JVal.arr [JVal.str "token123"])])]
  else if s = "<NATION><SUCCESS>New dispatch posted.</SUCCESS></NATION>" then
    JVal.obj [("NATION", JVal.obj [("SUCCESS", JVal.arr [JVal.str "New dispatch posted."])])]
  else JVal.undefined

def transportC3 : Nat → String := fun i =>
  if i = 0 then "<NATION><SUCCESS>token123</SUCCESS></NATION>"
  else "<NATION><SUCCESS>New dispatch posted.</SUCCESS></NATION>"

def transportC3noToken : Nat → String := fun _ => "<NATION></NATION>"

/-- C3 witness: with a token in the prepare response there are exactly two
transport calls, first with the original (prepare) arguments, second with
mode = 'execute' and the literal token; with no token the send fails after
exactly one transport call. -/
theorem two_step_send_protocol_witness :
    ((twoStepSend twoStepReqC3 parseC3 transportC3).2.length = 2 ∧
      (twoStepSend twoStepReqC3 parseC3 transportC3).2.get? 0 = some twoStepReqC3.args ∧
      twoStepReqC3.args.get "mode" = some "prepare" ∧
      (∃ m2, (twoStepSend twoStepReqC3 parseC3 transportC3).2.get? 1 = some m2 ∧
        m2.get "mode" = some "execute" ∧ m2.get "token" = some "token123")) ∧
    ((∃ e, (twoStepSend twoStepReqC3 parseC3 transportC3noToken).1 = .error e) ∧
      (twoStepSend twoStepReqC3 parseC3 transportC3noToken).2.length = 1) := by
  constructor
  · exact (two_step_send_protocol twoStepReqC3 parseC3 transportC3).1 "token123"
      (by decide) rfl (by decide) rfl rfl (by decide)
  · exact (two_step_send_protocol twoStepReqC3 parseC3 transportC3noToken).2
      (by decide) (by decide) rfl rfl

end Owl
